import Mathlib

set_option maxRecDepth 100000

/-!
Shallow embedding of the stylelint rule color-named
(src/lib/rules/color-named/index.js) together with the reference data and
utility collaborators it consumes.  Pure string computations model the
per-token decision procedure; the value tree walk is explicit recursion over
a node tree; fallible lookups return Option.
-/

namespace ColorNamed

/-- Lowercase a single character, as String.prototype.toLowerCase does on
ASCII letters (the only characters occurring in the data handled here). -/
def lowerChar (c : Char) : Char :=
  if 'A' ≤ c && c ≤ 'Z' then Char.ofNat (c.toNat + 32) else c

/-- Embedding of value.toLowerCase() from the source. -/
def lowerStr (s : String) : String := String.mk (s.data.map lowerChar)

/-- Whitespace as matched by the JavaScript regular expression class \s
(restricted to ASCII, the only characters occurring here). -/
def isWs (c : Char) : Bool :=
  c == ' ' || c == '\t' || c == '\n' || c == '\r' || c == '\x0b' || c == '\x0c'

/-- Embedding of s.replace of all whitespace runs by the empty string, as in
line 113 of the source. -/
def stripWs (s : String) : String := String.mk (s.data.filter (fun c => !isWs c))

/-- Value of a lowercase hexadecimal digit character. -/
def hexDigitVal (c : Char) : Option Nat :=
  if '0' ≤ c && c ≤ '9' then some (c.toNat - 48)
  else if 'a' ≤ c && c ≤ 'f' then some (c.toNat - 87)
  else none

/-- Parse a 6-digit lowercase hex color spelling of the shape #rrggbb into
its three channel values. -/
def parseHex6 (s : String) : Option (Nat × Nat × Nat) :=
  match s.data with
  | ['#', a, b, c, d, e, f] =>
    match hexDigitVal a, hexDigitVal b, hexDigitVal c,
          hexDigitVal d, hexDigitVal e, hexDigitVal f with
    | some va, some vb, some vc, some vd, some ve, some vf =>
      some (16 * va + vb, 16 * vc + vd, 16 * ve + vf)
    | _, _, _, _, _, _ => none
  | _ => none

/-- Modelled from the spec: the Representation Generator
(./generateColorFuncs, whose source file is not under src/).  Given the
canonical 6-digit hex spelling it produces every whitespace-free, lowercase
functional-notation string the engine treats as equivalent: the
integer-channel 3-argument rgb form, with and without alpha, and the
percentage-channel form exactly when every channel converts to a whole
percentage (channels that round unevenly are excluded rather than
approximated). -/
def generateColorFuncs (hex : String) : List String :=
  match parseHex6 hex with
  | none => []
  | some (r, g, b) =>
    let ri := toString r
    let gi := toString g
    let bi := toString b
    let intForms :=
      ["rgb(" ++ ri ++ "," ++ gi ++ "," ++ bi ++ ")",
       "rgba(" ++ ri ++ "," ++ gi ++ "," ++ bi ++ ",1)"]
    if r % 51 == 0 && g % 51 == 0 && b % 51 == 0 then
      let rp := toString (r / 51 * 20) ++ "%"
      let gp := toString (g / 51 * 20) ++ "%"
      let bp := toString (b / 51 * 20) ++ "%"
      intForms ++
        ["rgb(" ++ rp ++ "," ++ gp ++ "," ++ bp ++ ")",
         "rgba(" ++ rp ++ "," ++ gp ++ "," ++ bp ++ ",1)"]
    else intForms

/-- Modelled from the spec: the static named color catalog
(../../reference/namedColorData, whose source file is not under src/): a
mapping from lowercase name to its ordered hex spellings, in the fixed
enumeration order (alphabetical), canonical 6-digit spelling first.  A
representative subset of the catalog of ~148 CSS named colors, containing
the colors the spec names, among them the pairs that share one literal
color (gray/grey, aqua/cyan, fuchsia/magenta). -/
def namedColorDataHex : List (String × List String) :=
  [("aqua", ["#00ffff", "#0ff"]),
   ("black", ["#000000", "#000"]),
   ("blue", ["#0000ff", "#00f"]),
   ("cyan", ["#00ffff", "#0ff"]),
   ("fuchsia", ["#ff00ff", "#f0f"]),
   ("gray", ["#808080"]),
   ("green", ["#008000"]),
   ("grey", ["#808080"]),
   ("lime", ["#00ff00", "#0f0"]),
   ("magenta", ["#ff00ff", "#f0f"]),
   ("red", ["#ff0000", "#f00"]),
   ("white", ["#ffffff", "#fff"]),
   ("yellow", ["#ffff00", "#ff0"])]

/-- Modelled from the spec: keywordSets.colorFunctionNames
(../../reference/keywordSets, not under src/): the static set of lowercase
function names treated as color functions, the rgb family. -/
def colorFunctionNames : List String := ["rgb", "rgba"]

/-- Modelled from the spec: propertySets.acceptCustomIdents
(../../reference/propertySets, not under src/): the static set of property
names that accept arbitrary identifiers and are skipped entirely. -/
def acceptCustomIdents : List String :=
  ["animation", "animation-name", "counter-increment", "counter-reset",
   "font", "font-family", "list-style", "list-style-type",
   "transition", "transition-property", "will-change"]

/-- The static reference data consumed by one rule invocation.  The source
reads these from require()d modules; keeping them as an explicit record lets
the theorems quantify over arbitrary catalogs where the code is generic. -/
structure ColorEnv where
  namedColorDataHex : List (String × List String)
  colorFunctionNames : List String
  acceptCustomIdents : List String
deriving DecidableEq

/-- The environment holding the modelled reference data. -/
def specEnv : ColorEnv := ⟨namedColorDataHex, colorFunctionNames, acceptCustomIdents⟩

/-- One entry of the equivalence index: namedColorData[name] = \x7b hex, func \x7d
at lines 60-63 of the source. -/
structure NamedColorEntry where
  name : String
  hex : List String
  func : List String
deriving DecidableEq

/-- Embedding of lines 52-64 of the source: for every catalog name record its
hex spellings and the generated function forms of its canonical hex hex[0]. -/
def buildIndex (catalog : List (String × List String)) : List NamedColorEntry :=
  catalog.map (fun p => ⟨p.1, p.2, generateColorFuncs (p.2.headD "")⟩)

/-- Embedding of the loop at lines 115-125 of the source: the first catalog
entry whose function forms contain s, short-circuiting at the first match. -/
def findFuncMatch : List NamedColorEntry → String → Option String
  | [], _ => none
  | e :: rest, s => if e.func.contains s then some e.name else findFuncMatch rest s

/-- Embedding of the loop at lines 132-142 of the source: the first catalog
entry whose hex forms contain s, short-circuiting at the first match. -/
def findHexMatch : List NamedColorEntry → String → Option String
  | [], _ => none
  | e :: rest, s => if e.hex.contains s then some e.name else findHexMatch rest s

/-- Object.keys(namedColorDataHex), line 52 of the source. -/
def namedColors (env : ColorEnv) : List String := env.namedColorDataHex.map Prod.fst

/-- A node of the parsed value tree, as delivered by the external value
walker: its type (word, function, ...), its value (for a function node, the
function name), its source offset, the stringified full text of the node,
and the verdicts of the two external syntax classifiers on it. -/
structure VNodeData where
  type : String
  value : String
  sourceIndex : Nat
  stringified : String
  standardSyntaxFunction : Bool
  standardSyntaxValue : Bool
deriving DecidableEq

/-- A value tree node together with its children, over which the walk can
descend or be pruned. -/
inductive VNode : Type where
  | mk (data : VNodeData) (nodes : List VNode)

/-- The rule configuration: the primary mode plus the two secondary options.
Patterns in ignoreProperties are modelled by their string form (matching by
equality), per the options matching collaborator of the spec. -/
structure RuleOptions where
  primary : String
  ignoreProperties : List String
  ignore : List String
deriving DecidableEq

/-- A reported problem: the message and the character index passed to the
diagnostic reporter by complain (lines 151-159 of the source). -/
structure Violation where
  message : String
  index : Nat
deriving DecidableEq

namespace messages

/-- Message template of line 21 of the source. -/
def expected (named original : String) : String :=
  "Expected \"" ++ original ++ "\" to be \"" ++ named ++ "\""

/-- Message template of line 22 of the source. -/
def rejected (named : String) : String :=
  "Unexpected named color \"" ++ named ++ "\""

end messages

/-- NODE_TYPES, line 26 of the source. -/
def NODE_TYPES : List String := ["word", "function"]

/-- Modelled from the spec: optionsMatches (../../utils/optionsMatches, not
under src/), restricted to string matching by equality. -/
def optionsMatches (options : List String) (value : String) : Bool :=
  options.contains value

/-- Embedding of the walk callback, lines 76-143 of the source.  Returns the
violation produced for the node (if any) and whether the walk descends into
the children of the node (the callback returning false prunes the subtree). -/
def checkNode (env : ColorEnv) (opts : RuleOptions) (node : VNodeData) :
    Option Violation × Bool :=
  if optionsMatches opts.ignore "inside-function" && node.type == "function" then
    (none, false)
  else if !node.standardSyntaxFunction then
    (none, false)
  else if !node.standardSyntaxValue then
    (none, true)
  else if !(NODE_TYPES.contains node.type) then
    (none, true)
  else if opts.primary == "never" && node.type == "word"
      && (namedColors env).contains (lowerStr node.value) then
    (some ⟨messages.rejected node.value, node.sourceIndex⟩, true)
  else if opts.primary != "always-where-possible" then
    (none, true)
  else if node.type == "function"
      && env.colorFunctionNames.contains (lowerStr node.value) then
    let normalizedFunctionString := stripWs node.stringified
    match findFuncMatch (buildIndex env.namedColorDataHex)
        (lowerStr normalizedFunctionString) with
    | some n => (some ⟨messages.expected n normalizedFunctionString, node.sourceIndex⟩, true)
    | none => (none, true)
  else
    match findHexMatch (buildIndex env.namedColorDataHex) (lowerStr node.value) with
    | some n => (some ⟨messages.expected n node.value, node.sourceIndex⟩, true)
    | none => (none, true)

mutual

/-- The walk over one value tree node: visit the node, then its children
unless the callback pruned the subtree.  base is declarationValueIndex(decl),
added to the source offset of every violation as in lines 100, 120, 137. -/
def walkNode (env : ColorEnv) (opts : RuleOptions) (base : Nat) : VNode → List Violation
  | .mk d children =>
    let r := checkNode env opts d
    (match r.1 with
     | some v => [⟨v.message, base + v.index⟩]
     | none => []) ++
    (if r.2 then walkNodes env opts base children else [])

/-- The walk over a list of sibling nodes, in order. -/
def walkNodes (env : ColorEnv) (opts : RuleOptions) (base : Nat) : List VNode → List Violation
  | [] => []
  | n :: rest => walkNode env opts base n ++ walkNodes env opts base rest

end

/-- A declaration as seen by the rule: its property, the offset of its value
within the declaration (the external declarationValueIndex collaborator),
and its value tree as parsed by the external value parser. -/
structure Declaration where
  prop : String
  valueIndex : Nat
  nodes : List VNode

/-- Embedding of the declaration visitor, lines 66-144 of the source:
skip properties accepting custom identifiers, skip ignored properties,
otherwise walk the value tree. -/
def checkDecl (env : ColorEnv) (opts : RuleOptions) (decl : Declaration) : List Violation :=
  if env.acceptCustomIdents.contains decl.prop then []
  else if optionsMatches opts.ignoreProperties decl.prop then []
  else walkNodes env opts decl.valueIndex decl.nodes

/-- Modelled from the spec: validateOptions (../../utils/validateOptions,
not under src/) applied to the possible-values lists of lines 31-46 of the
source: the primary mode must be exactly never or always-where-possible and
every ignore entry must be inside-function. -/
def validOptions (opts : RuleOptions) : Bool :=
  (opts.primary == "never" || opts.primary == "always-where-possible")
    && opts.ignore.all (fun s => s == "inside-function")

/-- Embedding of the whole rule body, lines 30-160 of the source: when the
options validate, walk every declaration of the stylesheet and collect the
violations; otherwise return at line 49 without walking anything. -/
def rule (env : ColorEnv) (opts : RuleOptions) (root : List Declaration) : List Violation :=
  if validOptions opts then (root.map (checkDecl env opts)).flatten else []

/-- A word-kind token admitted by the syntax classifiers; for a bare word the
stringified text is the value itself. -/
def wordNode (text : String) (idx : Nat) : VNodeData :=
  ⟨"word", text, idx, text, true, true⟩

/-- A function-kind token admitted by the syntax classifiers: its function
name and its stringified full source text. -/
def funcNode (name full : String) (idx : Nat) : VNodeData :=
  ⟨"function", name, idx, full, true, true⟩

/-- The mode always-where-possible with no secondary options. -/
def optsAlways : RuleOptions := ⟨"always-where-possible", [], []⟩

/-- The mode never with no secondary options. -/
def optsNever : RuleOptions := ⟨"never", [], []⟩

/-- A successful function-form lookup returns the name of a catalog entry
whose function forms contain the query. -/
theorem findFuncMatch_eq_some {l : List NamedColorEntry} {s n : String}
    (h : findFuncMatch l s = some n) :
    ∃ e ∈ l, e.name = n ∧ s ∈ e.func := by
  induction l with
  | nil => simp [findFuncMatch] at h
  | cons e rest ih =>
    by_cases hc : e.func.contains s = true
    · have hm : s ∈ e.func := List.elem_iff.mp hc
      refine ⟨e, List.mem_cons_self e rest, ?_, hm⟩
      have h' : some e.name = some n := by simpa [findFuncMatch, hm] using h
      exact Option.some.inj h'
    · have hm : s ∉ e.func := fun hmem => hc (List.elem_iff.mpr hmem)
      have h' : findFuncMatch rest s = some n := by simpa [findFuncMatch, hm] using h
      obtain ⟨e', he', hn, hs⟩ := ih h'
      exact ⟨e', List.mem_cons_of_mem _ he', hn, hs⟩

/-- The function-form lookup succeeds exactly when some catalog entry holds
the query among its function forms. -/
theorem findFuncMatch_isSome_iff {l : List NamedColorEntry} {s : String} :
    (findFuncMatch l s).isSome = true ↔ ∃ e ∈ l, s ∈ e.func := by
  induction l with
  | nil => simp [findFuncMatch]
  | cons e rest ih =>
    by_cases hc : e.func.contains s = true
    · have hm : s ∈ e.func := List.elem_iff.mp hc
      simp only [findFuncMatch, hc, if_true]
      simp only [Option.isSome_some, true_iff]
      exact ⟨e, List.mem_cons_self e rest, hm⟩
    · have hm : s ∉ e.func := fun hmem => hc (List.elem_iff.mpr hmem)
      rw [show findFuncMatch (e :: rest) s = findFuncMatch rest s by
        simp [findFuncMatch, hm]]
      rw [ih]
      constructor
      · rintro ⟨e', he', hs⟩
        exact ⟨e', List.mem_cons_of_mem _ he', hs⟩
      · rintro ⟨e', he', hs⟩
        rcases List.mem_cons.mp he' with rfl | h'
        · exact absurd hs hm
        · exact ⟨e', h', hs⟩

/-- A successful hex-form lookup returns the name of a catalog entry whose
hex forms contain the query. -/
theorem findHexMatch_eq_some {l : List NamedColorEntry} {s n : String}
    (h : findHexMatch l s = some n) :
    ∃ e ∈ l, e.name = n ∧ s ∈ e.hex := by
  induction l with
  | nil => simp [findHexMatch] at h
  | cons e rest ih =>
    by_cases hc : e.hex.contains s = true
    · have hm : s ∈ e.hex := List.elem_iff.mp hc
      refine ⟨e, List.mem_cons_self e rest, ?_, hm⟩
      have h' : some e.name = some n := by simpa [findHexMatch, hm] using h
      exact Option.some.inj h'
    · have hm : s ∉ e.hex := fun hmem => hc (List.elem_iff.mpr hmem)
      have h' : findHexMatch rest s = some n := by simpa [findHexMatch, hm] using h
      obtain ⟨e', he', hn, hs⟩ := ih h'
      exact ⟨e', List.mem_cons_of_mem _ he', hn, hs⟩

/-- The hex-form lookup succeeds exactly when some catalog entry holds the
query among its hex forms. -/
theorem findHexMatch_isSome_iff {l : List NamedColorEntry} {s : String} :
    (findHexMatch l s).isSome = true ↔ ∃ e ∈ l, s ∈ e.hex := by
  induction l with
  | nil => simp [findHexMatch]
  | cons e rest ih =>
    by_cases hc : e.hex.contains s = true
    · have hm : s ∈ e.hex := List.elem_iff.mp hc
      simp only [findHexMatch, hc, if_true]
      simp only [Option.isSome_some, true_iff]
      exact ⟨e, List.mem_cons_self e rest, hm⟩
    · have hm : s ∉ e.hex := fun hmem => hc (List.elem_iff.mpr hmem)
      rw [show findHexMatch (e :: rest) s = findHexMatch rest s by
        simp [findHexMatch, hm]]
      rw [ih]
      constructor
      · rintro ⟨e', he', hs⟩
        exact ⟨e', List.mem_cons_of_mem _ he', hs⟩
      · rintro ⟨e', he', hs⟩
        rcases List.mem_cons.mp he' with rfl | h'
        · exact absurd hs hm
        · exact ⟨e', h', hs⟩

/-- Under mode never the callback reduces to the single named-color word
check of lines 99-103: a rejected violation exactly when an admitted word
token spells a catalog name, and nothing else. -/
theorem checkNode_never_eq (env : ColorEnv) (opts : RuleOptions) (d : VNodeData)
    (hp : opts.primary = "never") :
    (checkNode env opts d).1 =
      if d.standardSyntaxFunction && d.standardSyntaxValue && (d.type == "word")
          && (namedColors env).contains (lowerStr d.value)
      then some ⟨messages.rejected d.value, d.sourceIndex⟩ else none := by
  simp only [checkNode, hp]
  by_cases h1 : (optionsMatches opts.ignore "inside-function" && (d.type == "function")) = true
  · have hf : d.type = "function" := by
      have h2 := ((Bool.and_eq_true _ _).mp h1).2
      simpa using h2
    have ht : (d.type == "word") = false := by simp [hf]
    simp [h1, ht]
  · have h1' : (optionsMatches opts.ignore "inside-function" && (d.type == "function")) = false := by
      simpa using h1
    by_cases h2 : d.standardSyntaxFunction = true
    · by_cases h3 : d.standardSyntaxValue = true
      · by_cases h4 : NODE_TYPES.contains d.type = true
        · have hm4 : d.type ∈ NODE_TYPES := List.elem_iff.mp h4
          by_cases h5 : (d.type == "word") = true
          · by_cases h6 : (namedColors env).contains (lowerStr d.value) = true
            · simp [h1', h2, h3, hm4, h5, List.elem_iff.mp h6]
            · have hm6 : lowerStr d.value ∉ namedColors env :=
                fun hh => h6 (List.elem_iff.mpr hh)
              have e6 : (("never" : String) ≠ "always-where-possible") := by decide
              simp [h1', h2, h3, hm4, h5, hm6, e6]
          · have ht : d.type ≠ "word" := fun e => h5 (by simp [e])
            have e6 : (("never" : String) ≠ "always-where-possible") := by decide
            simp [h1', h2, h3, hm4, ht, e6]
        · have hm4 : d.type ∉ NODE_TYPES := fun hh => h4 (List.elem_iff.mpr hh)
          have ht : d.type ≠ "word" := by
            intro e
            rw [e] at hm4
            simp [NODE_TYPES] at hm4
          simp [h1', h2, h3, hm4, ht]
      · have h3' : d.standardSyntaxValue = false := by simpa using h3
        simp [h1', h2, h3']
    · have h2' : d.standardSyntaxFunction = false := by simpa using h2
      simp [h1', h2']

/-- Under mode always-where-possible an admitted function token with a
recognized color function name is decided entirely by the function-form
lookup of lines 111-128 on its whitespace-stripped text: the hex loop of
lines 132-142 is never reached. -/
theorem checkNode_function_eq (env : ColorEnv) (opts : RuleOptions) (d : VNodeData)
    (hp : opts.primary = "always-where-possible")
    (hig : optionsMatches opts.ignore "inside-function" = false)
    (hsf : d.standardSyntaxFunction = true) (hsv : d.standardSyntaxValue = true)
    (ht : d.type = "function")
    (hfn : env.colorFunctionNames.contains (lowerStr d.value) = true) :
    (checkNode env opts d).1 =
      (findFuncMatch (buildIndex env.namedColorDataHex)
          (lowerStr (stripWs d.stringified))).map
        (fun n => ⟨messages.expected n (stripWs d.stringified), d.sourceIndex⟩) := by
  have hfn' : lowerStr d.value ∈ env.colorFunctionNames := List.elem_iff.mp hfn
  cases hx : findFuncMatch (buildIndex env.namedColorDataHex)
      (lowerStr (stripWs d.stringified)) with
  | none => simp [checkNode, NODE_TYPES, hp, hig, hsf, hsv, ht, hfn', hx]
  | some n => simp [checkNode, NODE_TYPES, hp, hig, hsf, hsv, ht, hfn', hx]

/-- Under mode always-where-possible an admitted word token is decided
entirely by the hex-form lookup of lines 132-142 on its lowercased text. -/
theorem checkNode_word_hex_eq (env : ColorEnv) (opts : RuleOptions) (d : VNodeData)
    (hp : opts.primary = "always-where-possible")
    (hsf : d.standardSyntaxFunction = true) (hsv : d.standardSyntaxValue = true)
    (ht : d.type = "word") :
    (checkNode env opts d).1 =
      (findHexMatch (buildIndex env.namedColorDataHex) (lowerStr d.value)).map
        (fun n => ⟨messages.expected n d.value, d.sourceIndex⟩) := by
  cases hx : findHexMatch (buildIndex env.namedColorDataHex) (lowerStr d.value) with
  | none => simp [checkNode, NODE_TYPES, hp, hsf, hsv, ht, hx]
  | some n => simp [checkNode, NODE_TYPES, hp, hsf, hsv, ht, hx]

/-- A successful function-form lookup names the entry at a position whose
function forms contain the query while every earlier position does not. -/
theorem findFuncMatch_first {l : List NamedColorEntry} {s n : String}
    (h : findFuncMatch l s = some n) :
    ∃ i, ∃ hi : i < l.length, (l.get ⟨i, hi⟩).name = n ∧ s ∈ (l.get ⟨i, hi⟩).func ∧
      ∀ j, ∀ hj : j < l.length, j < i → s ∉ (l.get ⟨j, hj⟩).func := by
  induction l with
  | nil => simp [findFuncMatch] at h
  | cons e rest ih =>
    by_cases hc : e.func.contains s = true
    · have hm : s ∈ e.func := List.elem_iff.mp hc
      have hn : e.name = n := by
        have h' : some e.name = some n := by simpa [findFuncMatch, hm] using h
        exact Option.some.inj h'
      exact ⟨0, Nat.succ_pos _, hn, hm, fun j hj hji => absurd hji (Nat.not_lt_zero j)⟩
    · have hm : s ∉ e.func := fun hmem => hc (List.elem_iff.mpr hmem)
      have h' : findFuncMatch rest s = some n := by simpa [findFuncMatch, hm] using h
      obtain ⟨i, hi, h1, h2, h3⟩ := ih h'
      refine ⟨i + 1, Nat.succ_lt_succ hi, h1, h2, ?_⟩
      intro j hj hji
      cases j with
      | zero => exact hm
      | succ k => exact h3 k (Nat.lt_of_succ_lt_succ hj) (Nat.lt_of_succ_lt_succ hji)

/-- A successful hex-form lookup names the entry at a position whose hex
forms contain the query while every earlier position does not. -/
theorem findHexMatch_first {l : List NamedColorEntry} {s n : String}
    (h : findHexMatch l s = some n) :
    ∃ i, ∃ hi : i < l.length, (l.get ⟨i, hi⟩).name = n ∧ s ∈ (l.get ⟨i, hi⟩).hex ∧
      ∀ j, ∀ hj : j < l.length, j < i → s ∉ (l.get ⟨j, hj⟩).hex := by
  induction l with
  | nil => simp [findHexMatch] at h
  | cons e rest ih =>
    by_cases hc : e.hex.contains s = true
    · have hm : s ∈ e.hex := List.elem_iff.mp hc
      have hn : e.name = n := by
        have h' : some e.name = some n := by simpa [findHexMatch, hm] using h
        exact Option.some.inj h'
      exact ⟨0, Nat.succ_pos _, hn, hm, fun j hj hji => absurd hji (Nat.not_lt_zero j)⟩
    · have hm : s ∉ e.hex := fun hmem => hc (List.elem_iff.mpr hmem)
      have h' : findHexMatch rest s = some n := by simpa [findHexMatch, hm] using h
      obtain ⟨i, hi, h1, h2, h3⟩ := ih h'
      refine ⟨i + 1, Nat.succ_lt_succ hi, h1, h2, ?_⟩
      intro j hj hji
      cases j with
      | zero => exact hm
      | succ k => exact h3 k (Nat.lt_of_succ_lt_succ hj) (Nat.lt_of_succ_lt_succ hji)

/-- C1 fails as stated: grey is a catalog color carrying the hex form
#808080, yet classifying the word token #808080 under always-where-possible
emits a violation suggesting gray, the earlier catalog entry with the same
form, and not grey. -/
theorem C1_counterexample :
    ("grey", ["#808080"]) ∈ specEnv.namedColorDataHex ∧
    (checkNode specEnv optsAlways (wordNode "#808080" 0)).1 =
      some ⟨messages.expected "gray" "#808080", 0⟩ ∧
    messages.expected "gray" "#808080" ≠ messages.expected "grey" "#808080" := by
  decide

/-- C1 (amended): for every named color of the catalog and every hex
spelling h among its hexForms, classifying a word token h under
always-where-possible emits an expected violation; the suggested name is
the first catalog color whose hexForms contain h, and it is the owning
color itself whenever no other catalog color shares the spelling h. -/
theorem C1_amended :
    ∀ p ∈ specEnv.namedColorDataHex, ∀ h ∈ p.2,
      (checkNode specEnv optsAlways (wordNode h 0)).1 =
        (findHexMatch (buildIndex specEnv.namedColorDataHex) (lowerStr h)).map
          (fun n => ⟨messages.expected n h, 0⟩) ∧
      (findHexMatch (buildIndex specEnv.namedColorDataHex) (lowerStr h)).isSome = true ∧
      ((∀ q ∈ specEnv.namedColorDataHex, h ∈ q.2 → q.1 = p.1) →
        findHexMatch (buildIndex specEnv.namedColorDataHex) (lowerStr h) = some p.1) := by
  decide

/-- Witness for C1 (amended) at the catalog color red and its hex form
#f00, whose spelling no other catalog color shares. -/
theorem C1_witness :
    (checkNode specEnv optsAlways (wordNode "#f00" 0)).1 =
      some ⟨messages.expected "red" "#f00", 0⟩ := by
  have h := C1_amended ("red", ["#ff0000", "#f00"]) (by decide) "#f00" (by decide)
  have h3 := h.2.2 (by decide)
  rw [h.1, h3]
  rfl

/-- C2: under mode never a violation is emitted for a token admitted by the
syntax classifiers exactly when it is a word whose lowercased text is a
catalog color name, and a function token is never flagged under this mode,
whatever its other attributes. -/
theorem C2_never_iff (env : ColorEnv) (opts : RuleOptions) (d : VNodeData)
    (hp : opts.primary = "never") :
    ((d.standardSyntaxFunction = true → d.standardSyntaxValue = true →
      (((checkNode env opts d).1).isSome = true ↔
        (d.type = "word" ∧ lowerStr d.value ∈ namedColors env)))) ∧
    (d.type = "function" → (checkNode env opts d).1 = none) := by
  constructor
  · intro hsf hsv
    rw [checkNode_never_eq env opts d hp]
    by_cases h5 : d.type = "word"
    · by_cases h6 : lowerStr d.value ∈ namedColors env
      · simp [hsf, hsv, h5, h6]
      · simp [hsf, hsv, h5, h6]
    · simp [hsf, hsv, h5]
  · intro ht
    rw [checkNode_never_eq env opts d hp]
    simp [ht]

/-- Witness for C2: the word red is rejected under never while an rgb
function token is not flagged. -/
theorem C2_witness :
    ((checkNode specEnv optsNever (wordNode "red" 0)).1).isSome = true ∧
    (checkNode specEnv optsNever (funcNode "rgb" "rgb(255,0,0)" 0)).1 = none := by
  constructor
  · exact ((C2_never_iff specEnv optsNever (wordNode "red" 0) rfl).1 rfl rfl).mpr
      ⟨rfl, by decide⟩
  · exact (C2_never_iff specEnv optsNever (funcNode "rgb" "rgb(255,0,0)" 0) rfl).2 rfl

/-- C6: classifying a word token that spells a catalog color name under
always-where-possible yields no violation, the token being already named. -/
theorem C6_named_word_ok :
    ∀ p ∈ specEnv.namedColorDataHex,
      (checkNode specEnv optsAlways (wordNode p.1 0)).1 = none := by
  decide

/-- Witness for C6 at the catalog color red. -/
theorem C6_witness :
    (checkNode specEnv optsAlways (wordNode "red" 0)).1 = none :=
  C6_named_word_ok ("red", ["#ff0000", "#f00"]) (by decide)

/-- C3: under always-where-possible an admitted function token whose
lowercased function name is recognized as a color function is decided by
the function-form lookup alone on its whitespace-stripped lowercased text:
a violation is emitted exactly when that text occurs among the
functionForms of some catalog color, the suggested name being the first
matching catalog entry, and the hexForms check is never consulted for the
token. -/
theorem C3_function_iff (env : ColorEnv) (opts : RuleOptions) (d : VNodeData)
    (hp : opts.primary = "always-where-possible")
    (hig : optionsMatches opts.ignore "inside-function" = false)
    (hsf : d.standardSyntaxFunction = true) (hsv : d.standardSyntaxValue = true)
    (ht : d.type = "function")
    (hfn : env.colorFunctionNames.contains (lowerStr d.value) = true) :
    ((checkNode env opts d).1 =
      (findFuncMatch (buildIndex env.namedColorDataHex)
          (lowerStr (stripWs d.stringified))).map
        (fun n => ⟨messages.expected n (stripWs d.stringified), d.sourceIndex⟩)) ∧
    (((checkNode env opts d).1).isSome = true ↔
      ∃ e ∈ buildIndex env.namedColorDataHex, lowerStr (stripWs d.stringified) ∈ e.func) := by
  have heq := checkNode_function_eq env opts d hp hig hsf hsv ht hfn
  have hmap : ∀ (x : Option String) (f : String → Violation),
      (x.map f).isSome = x.isSome := by
    intro x f
    cases x <;> rfl
  refine ⟨heq, ?_⟩
  rw [heq, hmap]
  exact findFuncMatch_isSome_iff

/-- Witness for C3 at the token rgb(255,0,0), matched by the functionForms
of red. -/
theorem C3_witness :
    (checkNode specEnv optsAlways (funcNode "rgb" "rgb(255,0,0)" 0)).1 =
      some ⟨messages.expected "red" "rgb(255,0,0)", 0⟩ := by
  have h := (C3_function_iff specEnv optsAlways (funcNode "rgb" "rgb(255,0,0)" 0)
    rfl rfl rfl rfl rfl (by decide)).1
  have h2 : findFuncMatch (buildIndex specEnv.namedColorDataHex)
      (lowerStr (stripWs (funcNode "rgb" "rgb(255,0,0)" 0).stringified)) = some "red" := by
    decide
  rw [h, h2]
  rfl

/-- C4 fails as stated: under always-where-possible the token
RGB(255, 0, 0) yields a violation whose message quotes RGB(255,0,0) with
its letter case preserved, while rgb(255,0,0) yields one quoting
rgb(255,0,0), so the two tokens do not produce the same violation. -/
theorem C4_counterexample :
    (checkNode specEnv optsAlways (funcNode "RGB" "RGB(255, 0, 0)" 0)).1 ≠
      (checkNode specEnv optsAlways (funcNode "rgb" "rgb(255,0,0)" 0)).1 := by
  decide

/-- C4 (amended): the three tokens classify equivalently up to the quoted
original text: each yields an expected violation suggesting red at the same
index, and the two spellings of identical case yield literally the same
violation; only the quoted original keeps the letter case of the token. -/
theorem C4_amended :
    (checkNode specEnv optsAlways (funcNode "rgb" "rgb(255,0,0)" 0)).1 =
      some ⟨messages.expected "red" "rgb(255,0,0)", 0⟩ ∧
    (checkNode specEnv optsAlways (funcNode "RGB" "RGB(255, 0, 0)" 0)).1 =
      some ⟨messages.expected "red" "RGB(255,0,0)", 0⟩ ∧
    (checkNode specEnv optsAlways (funcNode "rgb" "rgb( 255 , 0 , 0 )" 0)).1 =
      some ⟨messages.expected "red" "rgb(255,0,0)", 0⟩ := by
  decide

/-- C5: both catalog searches are deterministic first-match searches: a
successful lookup names the entry at a position whose forms contain the
query while every earlier position does not, so the suggested name is
always the first matching name in the fixed catalog enumeration order and
the search short-circuits there. -/
theorem C5_first_match :
    (∀ (index : List NamedColorEntry) (s n : String), findFuncMatch index s = some n →
      ∃ i, ∃ hi : i < index.length, (index.get ⟨i, hi⟩).name = n ∧
        s ∈ (index.get ⟨i, hi⟩).func ∧
        ∀ j, ∀ hj : j < index.length, j < i → s ∉ (index.get ⟨j, hj⟩).func) ∧
    (∀ (index : List NamedColorEntry) (s n : String), findHexMatch index s = some n →
      ∃ i, ∃ hi : i < index.length, (index.get ⟨i, hi⟩).name = n ∧
        s ∈ (index.get ⟨i, hi⟩).hex ∧
        ∀ j, ∀ hj : j < index.length, j < i → s ∉ (index.get ⟨j, hj⟩).hex) := by
  constructor
  · intro index s n h
    exact findFuncMatch_first h
  · intro index s n h
    exact findHexMatch_first h

/-- Witness for C5 at the ambiguous hex form #808080, shared by gray and
grey: the lookup reports gray, the first matching catalog entry. -/
theorem C5_witness :
    findHexMatch (buildIndex specEnv.namedColorDataHex) "#808080" = some "gray" ∧
    (∃ i, ∃ hi : i < (buildIndex specEnv.namedColorDataHex).length,
      ((buildIndex specEnv.namedColorDataHex).get ⟨i, hi⟩).name = "gray" ∧
      "#808080" ∈ ((buildIndex specEnv.namedColorDataHex).get ⟨i, hi⟩).hex ∧
      ∀ j, ∀ hj : j < (buildIndex specEnv.namedColorDataHex).length, j < i →
        "#808080" ∉ ((buildIndex specEnv.namedColorDataHex).get ⟨j, hj⟩).hex) :=
  ⟨by decide,
   C5_first_match.2 (buildIndex specEnv.namedColorDataHex) "#808080" "gray" (by decide)⟩

/-- C7: a declaration whose property belongs to the accepts-custom-
identifiers set or matches the configured ignoreProperties produces no
violation for any of its tokens, under any options: a silent no-op. -/
theorem C7_skipped_props (env : ColorEnv) (opts : RuleOptions) (decl : Declaration)
    (h : env.acceptCustomIdents.contains decl.prop = true ∨
      optionsMatches opts.ignoreProperties decl.prop = true) :
    checkDecl env opts decl = [] := by
  rcases h with h | h
  · have hm : decl.prop ∈ env.acceptCustomIdents := List.elem_iff.mp h
    simp [checkDecl, hm]
  · have hm : decl.prop ∈ opts.ignoreProperties := List.elem_iff.mp h
    by_cases h0 : decl.prop ∈ env.acceptCustomIdents
    · simp [checkDecl, h0]
    · simp [checkDecl, optionsMatches, h0, hm]

/-- Witness for C7: the property font with value red under never yields
nothing. -/
theorem C7_witness :
    checkDecl specEnv optsNever
      ⟨"font", 5, [VNode.mk (wordNode "red" 0) []]⟩ = [] :=
  C7_skipped_props specEnv optsNever
    ⟨"font", 5, [VNode.mk (wordNode "red" 0) []]⟩ (Or.inl (by decide))

/-- C8: when the configuration does not validate the rule returns at once:
no declaration is walked and no violation is reported for any stylesheet. -/
theorem C8_invalid_options (env : ColorEnv) (opts : RuleOptions) (root : List Declaration)
    (h : validOptions opts = false) :
    rule env opts root = [] := by
  simp [rule, h]

/-- Witness for C8: an unknown primary mode reports nothing even on a
stylesheet holding a named color. -/
theorem C8_witness :
    rule specEnv ⟨"sometimes", [], []⟩
      [⟨"color", 7, [VNode.mk (wordNode "red" 0) []]⟩] = [] :=
  C8_invalid_options specEnv ⟨"sometimes", [], []⟩
    [⟨"color", 7, [VNode.mk (wordNode "red" 0) []]⟩] (by decide)

/-- C9: with the inside-function ignore option every function token is
skipped whole: the callback returns the pruning signal before any check,
so the function token itself is never examined and its children are never
walked, and even a top-level recognized color function yields nothing. -/
theorem C9_inside_function_skips (env : ColorEnv) (opts : RuleOptions) (d : VNodeData)
    (children : List VNode) (base : Nat)
    (hig : optionsMatches opts.ignore "inside-function" = true)
    (ht : d.type = "function") :
    checkNode env opts d = (none, false) ∧
    walkNode env opts base (VNode.mk d children) = [] := by
  have hc : checkNode env opts d = (none, false) := by
    simp [checkNode, hig, ht]
  refine ⟨hc, ?_⟩
  simp [walkNode, hc]

/-- Witness for C9: a top-level rgb(255,0,0) under always-where-possible
with ignore inside-function produces no violation at all. -/
theorem C9_witness :
    walkNode specEnv ⟨"always-where-possible", [], ["inside-function"]⟩ 0
      (VNode.mk (funcNode "rgb" "rgb(255,0,0)" 0)
        [VNode.mk (wordNode "255" 4) []]) = [] :=
  (C9_inside_function_skips specEnv ⟨"always-where-possible", [], ["inside-function"]⟩
    (funcNode "rgb" "rgb(255,0,0)" 0) [VNode.mk (wordNode "255" 4) []] 0
    (by decide) rfl).2

/-- C10 fails as stated: the admitted function token named #F00 with source
text #F00( 0 ) is not a recognized color function, so it falls through to
the hex loop of lines 132-141, which flags it quoting the raw node value
#F00 — not the whitespace-stripped token text #F00(0). -/
theorem C10_counterexample :
    (checkNode specEnv optsAlways (funcNode "#F00" "#F00( 0 )" 0)).1 =
      some ⟨messages.expected "red" "#F00", 0⟩ ∧
    messages.expected "red" "#F00" ≠
      messages.expected "red" (stripWs "#F00( 0 )") := by
  decide

/-- C10 (amended): for every admitted function token whose lowercased
function name is a recognized color function, an expected violation quotes
the whitespace-stripped token text with its letter case preserved, and the
suggested name is a catalog name, itself lowercase whenever every catalog
name is lowercase.  (A function token with an unrecognized name can still
be flagged through the hexForms loop, which quotes the raw function name
instead.) -/
theorem C10_message_form (env : ColorEnv) (opts : RuleOptions) (d : VNodeData) (v : Violation)
    (hp : opts.primary = "always-where-possible")
    (hig : optionsMatches opts.ignore "inside-function" = false)
    (hsf : d.standardSyntaxFunction = true) (hsv : d.standardSyntaxValue = true)
    (ht : d.type = "function")
    (hfn : env.colorFunctionNames.contains (lowerStr d.value) = true)
    (hlc : ∀ p ∈ env.namedColorDataHex, lowerStr p.1 = p.1)
    (hv : (checkNode env opts d).1 = some v) :
    ∃ e ∈ buildIndex env.namedColorDataHex,
      v.message = messages.expected e.name (stripWs d.stringified) ∧
      lowerStr (stripWs d.stringified) ∈ e.func ∧
      lowerStr e.name = e.name := by
  have heq := checkNode_function_eq env opts d hp hig hsf hsv ht hfn
  rw [heq] at hv
  cases hx : findFuncMatch (buildIndex env.namedColorDataHex)
      (lowerStr (stripWs d.stringified)) with
  | none =>
    rw [hx] at hv
    simp at hv
  | some n =>
    rw [hx] at hv
    obtain ⟨e, he, hn, hs⟩ := findFuncMatch_eq_some hx
    have hname : lowerStr e.name = e.name := by
      have he' := he
      simp only [buildIndex] at he'
      obtain ⟨p, hpmem, hpe⟩ := List.mem_map.mp he'
      have : e.name = p.1 := by rw [← hpe]
      rw [this]
      exact hlc p hpmem
    have hv' : v = ⟨messages.expected n (stripWs d.stringified), d.sourceIndex⟩ := by
      have := Option.some.inj hv
      exact this.symm
    refine ⟨e, he, ?_, hs, hname⟩
    rw [hv', hn]

/-- Witness for C10 at the mixed-case token RGB(255, 0, 0). -/
theorem C10_witness :
    ∃ e ∈ buildIndex specEnv.namedColorDataHex,
      (⟨messages.expected "red" "RGB(255,0,0)", 0⟩ : Violation).message =
        messages.expected e.name (stripWs (funcNode "RGB" "RGB(255, 0, 0)" 0).stringified) ∧
      lowerStr (stripWs (funcNode "RGB" "RGB(255, 0, 0)" 0).stringified) ∈ e.func ∧
      lowerStr e.name = e.name :=
  C10_message_form specEnv optsAlways (funcNode "RGB" "RGB(255, 0, 0)" 0)
    ⟨messages.expected "red" "RGB(255,0,0)", 0⟩ rfl rfl rfl rfl rfl (by decide)
    (by decide) (by decide)

example : generateColorFuncs "#ff0000" =
    ["rgb(255,0,0)", "rgba(255,0,0,1)", "rgb(100%,0%,0%)", "rgba(100%,0%,0%,1)"] := by
  decide

example : (checkNode specEnv optsAlways (funcNode "rgb" "rgb(255,0,0)" 0)).1 =
    some ⟨messages.expected "red" "rgb(255,0,0)", 0⟩ := by decide

example : (checkNode specEnv optsNever (wordNode "red" 0)).1 =
    some ⟨messages.rejected "red", 0⟩ := by decide

example : (checkNode specEnv optsAlways (wordNode "#f00" 0)).1 =
    some ⟨messages.expected "red" "#f00", 0⟩ := by decide

end ColorNamed
